import Mathlib

/-!
Shallow embedding of the map-assistant tool pipeline: the geometry centroid
utilities, the provider result normalizers, the bounded TTL caches, the
Nominatim place-resolver service, the Foursquare chained recommendation
resolver, and the TripAdvisor fallback-geocoding loop.  JavaScript numbers
are modelled as rationals, JavaScript `Map` objects as insertion-ordered
association lists, and each network call as an oracle value supplied to the
function under verification.
-/

/-- A 2D coordinate `[x, y]` (GeoJSON order: longitude, latitude). -/
abbrev Coord := ℚ × ℚ

/-- Scalar or array values stored in a feature's `properties` object.
`undef` models a JavaScript `undefined` stored under a present key. -/
inductive PropVal where
  | str (s : String)
  | num (q : ℚ)
  | strList (l : List String)
  | undef
deriving DecidableEq

/-- GeoJSON geometry kinds handled by the repository. -/
inductive Geometry where
  | point (c : Coord)
  | multiPoint (cs : List Coord)
  | lineString (cs : List Coord)
  | multiLineString (ls : List (List Coord))
  | polygon (rings : List (List Coord))
  | multiPolygon (polys : List (List (List Coord)))
deriving DecidableEq

/-- A GeoJSON feature; `geometry` is `none` when the JSON geometry is null. -/
structure Feature where
  properties : List (String × PropVal)
  geometry : Option Geometry
deriving DecidableEq

/-- A GeoJSON feature collection (ordered). -/
structure FeatureCollection where
  features : List Feature
deriving DecidableEq

/-- The tagged result passed across the tool boundary
(`{ok: true, data, source} | {ok: false, error, status?}`). -/
inductive ToolResult where
  | ok (data : FeatureCollection) (source : String)
  | err (error : String) (status : Option Nat)
deriving DecidableEq

/-! ### Shoelace summation shared by both centroid implementations -/

/-- The cross term `x1*y2 - x2*y1` of one coordinate pair. -/
def crossOf (pq : Coord × Coord) : ℚ :=
  pq.1.1 * pq.2.2 - pq.2.1 * pq.1.2

/-- The x-numerator term `(x1+x2)*cross` of one coordinate pair. -/
def cxOf (pq : Coord × Coord) : ℚ :=
  (pq.1.1 + pq.2.1) * crossOf pq

/-- The y-numerator term `(y1+y2)*cross` of one coordinate pair. -/
def cyOf (pq : Coord × Coord) : ℚ :=
  (pq.1.2 + pq.2.2) * crossOf pq

/-- Accumulated `a` over a list of coordinate pairs. -/
def shoelaceA (ps : List (Coord × Coord)) : ℚ := (ps.map crossOf).sum

/-- Accumulated `cx` over a list of coordinate pairs. -/
def shoelaceCx (ps : List (Coord × Coord)) : ℚ := (ps.map cxOf).sum

/-- Accumulated `cy` over a list of coordinate pairs. -/
def shoelaceCy (ps : List (Coord × Coord)) : ℚ := (ps.map cyOf).sum

/-- Rotation by one: `[r0, r1, ..., r(n-1)] ↦ [r1, ..., r(n-1), r0]`
(so that `zip`ping a ring with its rotation yields the index pairs
`(i, (i+1) % n)`). -/
def rotate1 : List Coord → List Coord
  | [] => []
  | x :: xs => xs ++ [x]

/-- Consecutive pairs with wrap-around `(ring[i], ring[(i+1) % n])`,
as iterated by the loop in `part_003`'s `centroid`. -/
def ringPairsWrap (ring : List Coord) : List (Coord × Coord) :=
  ring.zip (rotate1 ring)

/-- Consecutive pairs `(r[i], r[i+1])` for `i < r.length - 1`, as iterated by
the loop in `ringCentroid` (tripadvisor.ts). -/
def ringPairsAdj (r : List Coord) : List (Coord × Coord) :=
  r.zip r.tail

/-- Arithmetic mean of a list of coordinates (the `reduce`-and-divide
fallback used throughout `geometryCentroid`). -/
def meanCoords (cs : List Coord) : Coord :=
  ((cs.map Prod.fst).sum / (cs.length : ℚ), (cs.map Prod.snd).sum / (cs.length : ℚ))

/-! ### `centroid` from `part_003` (Foursquare chained resolver) -/

/-- Polygon branch of `part_003`'s `centroid`: given the outer ring, return
`ring[0] ?? null` when fewer than 3 points or zero shoelace sum, else the
shoelace centroid. -/
def centroidOfRing (ring : List Coord) : Option Coord :=
  if ring.length < 3 then ring.head?
  else
    let a := shoelaceA (ringPairsWrap ring)
    if a = 0 then ring.head?
    else some (shoelaceCx (ringPairsWrap ring) / (3 * a), shoelaceCy (ringPairsWrap ring) / (3 * a))

/-- One iteration of the MultiPolygon loop in `part_003`'s `centroid`:
skip rings with fewer than 3 points or zero shoelace sum, otherwise add
`a`, `cx`, `cy` to the running totals `(A, CX, CY)`. -/
def mpStep (acc : ℚ × ℚ × ℚ) (poly : List (List Coord)) : ℚ × ℚ × ℚ :=
  let ring := poly.headD []
  if ring.length < 3 then acc
  else
    let a := shoelaceA (ringPairsWrap ring)
    if a = 0 then acc
    else (acc.1 + a, acc.2.1 + shoelaceCx (ringPairsWrap ring), acc.2.2 + shoelaceCy (ringPairsWrap ring))

/-- `centroid` from `part_003`.  The MultiPoint/LineString/MultiLineString
fallback in the source flattens the coordinate array two levels deep
(`coordinates?.flat?.(2)`), producing bare numbers whose destructuring in
the `reduce` callback throws; the surrounding `try` turns that into `null`,
so those kinds (and any other kind) are modelled as `none`. -/
def centroid : Option Geometry → Option Coord
  | none => none
  | some (Geometry.point c) => some c
  | some (Geometry.polygon rings) => centroidOfRing (rings.headD [])
  | some (Geometry.multiPolygon polys) =>
    let acc := polys.foldl mpStep (0, 0, 0)
    if acc.1 = 0 then (polys.head?.bind List.head?).bind List.head?
    else some (acc.2.1 / (3 * acc.1), acc.2.2 / (3 * acc.1))
  | some _ => none

/-! ### Centroid utilities from tripadvisor.ts -/

/-- `closeRing`: append the first point when the ring is not already closed. -/
def closeRing (ring : List Coord) : List Coord :=
  match ring.head?, ring.getLast? with
  | some first, some last => if first = last then ring else ring ++ [first]
  | _, _ => ring

/-- Result record of `ringCentroid` (tripadvisor.ts). -/
structure RingCentroid where
  cx : ℚ
  cy : ℚ
  area : ℚ
deriving DecidableEq

/-- `ringCentroid` from tripadvisor.ts: close the ring, run the shoelace
summation over adjacent pairs, return `null` when degenerate. -/
def ringCentroid (ring : List Coord) : Option RingCentroid :=
  let r := closeRing ring
  let twiceArea := shoelaceA (ringPairsAdj r)
  if twiceArea = 0 then none
  else some { cx := shoelaceCx (ringPairsAdj r) / (3 * twiceArea)
              cy := shoelaceCy (ringPairsAdj r) / (3 * twiceArea)
              area := twiceArea / 2 }

/-- One iteration of the MultiPolygon loop in `geometryCentroid`
(tripadvisor.ts): accumulate `(cx*|area|, cy*|area|, |area|)` of each
non-degenerate outer ring. -/
def taMpStep (s : ℚ × ℚ × ℚ) (poly : List (List Coord)) : ℚ × ℚ × ℚ :=
  match poly.head? with
  | none => s
  | some outer =>
    if outer = [] then s
    else
      match ringCentroid outer with
      | none => s
      | some rc => (s.1 + rc.cx * |rc.area|, s.2.1 + rc.cy * |rc.area|, s.2.2 + |rc.area|)

/-- `geometryCentroid` from tripadvisor.ts. -/
def geometryCentroid : Geometry → Option Coord
  | Geometry.point c => some c
  | Geometry.multiPoint pts => if pts = [] then none else some (meanCoords pts)
  | Geometry.lineString pts => if pts = [] then none else some (meanCoords pts)
  | Geometry.multiLineString lines =>
    let all := lines.flatten
    if all = [] then none else some (meanCoords all)
  | Geometry.polygon rings =>
    match rings.head? with
    | none => none
    | some outer =>
      if outer = [] then none
      else
        match ringCentroid outer with
        | some rc => some (rc.cx, rc.cy)
        | none => some (meanCoords outer)
  | Geometry.multiPolygon polys =>
    let s := polys.foldl taMpStep (0, 0, 0)
    if 0 < s.2.2 then some (s.1 / s.2.2, s.2.1 / s.2.2)
    else
      let all := polys.flatten.flatten
      if all = [] then none else some (meanCoords all)

/-! ### Generic bounded TTL cache (JavaScript `Map` as association list) -/

/-- First-match association lookup (JavaScript `Map.get`). -/
def alookup {κ β : Type} [DecidableEq κ] (k : κ) : List (κ × β) → Option β
  | [] => none
  | kv :: rest => if kv.1 = k then some kv.2 else alookup k rest

/-- JavaScript `Map.delete`: remove the entry with the given key. -/
def mapDelete {κ β : Type} [DecidableEq κ] (m : List (κ × β)) (k : κ) : List (κ × β) :=
  m.filter (fun kv => decide (kv.1 ≠ k))

/-- JavaScript `Map.set`: update in place when the key is present (keeping its
position in iteration order), otherwise append at the end. -/
def mapSet {κ β : Type} [DecidableEq κ] (m : List (κ × β)) (k : κ) (v : β) : List (κ × β) :=
  if (alookup k m).isSome then m.map (fun kv => if kv.1 = k then (k, v) else kv)
  else m ++ [(k, v)]

/-- `cacheGet`: look up a key, deleting it (and missing) when expired.
Returns the updated cache and the hit value. -/
def cacheGetStep {κ β : Type} [DecidableEq κ] (m : List (κ × (β × Nat))) (now : Nat) (k : κ) :
    List (κ × (β × Nat)) × Option β :=
  match alookup k m with
  | none => (m, none)
  | some ve => if ve.2 < now then (mapDelete m k, none) else (m, some ve.1)

/-- `cacheSet`: when the cache has reached capacity, delete the first key in
iteration order, then set the new entry with expiry `now + ttl`. -/
def cacheSetStep {κ β : Type} [DecidableEq κ] (MAX : Nat) (m : List (κ × (β × Nat)))
    (now : Nat) (k : κ) (v : β) (ttl : Nat) : List (κ × (β × Nat)) :=
  let m1 :=
    if MAX ≤ m.length then
      match m.head? with
      | some kv => mapDelete m kv.1
      | none => m
    else m
  mapSet m1 k (v, now + ttl)

/-- An observable cache operation (used to state the capacity invariant over
arbitrary operation sequences). -/
inductive CacheOp (κ α : Type) where
  | get (now : Nat) (k : κ)
  | set (now : Nat) (k : κ) (v : α) (ttl : Nat)

/-- Run a sequence of cache operations against a cache with capacity `MAX`. -/
def runOps {κ α : Type} [DecidableEq κ] (MAX : Nat) :
    List (CacheOp κ α) → List (κ × (α × Nat)) → List (κ × (α × Nat))
  | [], m => m
  | op :: rest, m =>
    match op with
    | CacheOp.get now k => runOps MAX rest (cacheGetStep m now k).1
    | CacheOp.set now k v ttl => runOps MAX rest (cacheSetStep MAX m now k v ttl)

/-! ### Nominatim service (part_001 / lib/services/nominatim.ts) -/

/-- Character-wise lower-casing (JavaScript `toLowerCase`). -/
def strLower (s : String) : String := ⟨s.data.map Char.toLower⟩

/-- Whitespace trimming on both ends (JavaScript `trim`), defined over the
character list so it evaluates by kernel reduction. -/
def strTrim (s : String) : String :=
  ⟨((s.data.dropWhile Char.isWhitespace).reverse.dropWhile Char.isWhitespace).reverse⟩

/-- Rounding to the nearest integer, halves up (JavaScript `Math.round` and,
for the magnitudes involved, `toFixed`): `⌊q + 1/2⌋`. -/
def jsRound (q : ℚ) : ℤ := (q + 1 / 2).floor

/-- `Number(x.toFixed(4))`: round to 4 decimal places. -/
def round4 (q : ℚ) : ℚ := ((jsRound (q * 10000) : ℤ) : ℚ) / 10000

/-- `Math.round(r * 10) / 10`: round to 1 decimal place. -/
def round1 (q : ℚ) : ℚ := ((jsRound (q * 10) : ℤ) : ℚ) / 10

/-- `Number(x.toFixed(3))`: round to 3 decimal places. -/
def round3 (q : ℚ) : ℚ := ((jsRound (q * 1000) : ℤ) : ℚ) / 1000

/-- Optional bias box argument (`near`) of the Nominatim search. -/
structure NomNear where
  lat : ℚ
  lng : ℚ
  radiusKm : Option ℚ
deriving DecidableEq

/-- `NominatimSearchArgs`. -/
structure NomArgs where
  query : String
  limit : Option Nat
  countrycodes : Option String
  polygon : Option Bool
  language : Option String
  near : Option NomNear
deriving DecidableEq

/-- The stable canonical key object built by `cacheKey` (the source
`JSON.stringify`s it; stringify is injective on this shape, so the object
itself serves as the key). -/
structure NomKey where
  q : String
  limit : Nat
  cc : String
  poly : Bool
  lang : String
  near : Option (ℚ × ℚ × ℚ)
deriving DecidableEq

/-- `cacheKey` from part_001: lower-cased trimmed query, defaulted fields, and
the bias center rounded to 4 decimals with radius rounded to 0.1 km
(a `radiusKm` of `0` is falsy in the source and defaults to 2). -/
def cacheKey (a : NomArgs) : NomKey :=
  { q := strLower (strTrim a.query)
    limit := a.limit.getD 5
    cc := a.countrycodes.getD ""
    poly := a.polygon.getD true
    lang := a.language.getD ""
    near := a.near.map (fun n =>
      (round4 n.lat, round4 n.lng,
        match n.radiusKm with
        | some r => if r = 0 then 2 else round1 r
        | none => 2)) }

/-- A raw Nominatim row (the fields read by `toFeatureCollection`);
`lon`/`lat` are the already-parsed coordinates. -/
structure NomRow where
  geojson : Option Geometry
  lon : ℚ
  lat : ℚ
  display_name : PropVal
  category : PropVal
  type : PropVal
  importance : PropVal
  osm_type : PropVal
  osm_id : PropVal
deriving DecidableEq

/-- `toFeatureCollection` from part_001: geometry prefers the row's
`geojson`, else a Point from `lon`/`lat`; properties carry the six
Nominatim fields (note: no `source` key). -/
def toFeatureCollection (items : List NomRow) : FeatureCollection :=
  { features := items.map (fun it =>
      { properties := [("display_name", it.display_name), ("category", it.category),
                       ("type", it.type), ("importance", it.importance),
                       ("osm_type", it.osm_type), ("osm_id", it.osm_id)]
        geometry := some (match it.geojson with
          | some g => g
          | none => Geometry.point (it.lon, it.lat)) }) }

/-- Outcome of the single `fetch` in `runNominatimSearch`. -/
inductive NomNet where
  | netErr (msg : String)
  | httpErr (status : Nat)
  | okRows (rows : List NomRow)

/-- `CACHE_TTL_MS` (part_001): 10 minutes. -/
def CACHE_TTL_MS : Nat := 10 * 60 * 1000

/-- The shorter TTL used for failure results in part_001: 2 minutes. -/
def NOM_ERR_TTL_MS : Nat := 2 * 60 * 1000

/-- `CACHE_MAX` (part_001): 300 entries. -/
def NOM_CACHE_MAX : Nat := 300

/-- The Nominatim result cache state. -/
abbrev NomCache := List (NomKey × (ToolResult × Nat))

/-- `runNominatimSearch` from part_001, as a function of the arguments, the
cache state, the clock, and the fetch oracle.  Returns the result, the new
cache state, and whether a network request was made. -/
def runNominatimSearch (a : NomArgs) (cache : NomCache) (now : Nat) (net : NomNet) :
    ToolResult × NomCache × Bool :=
  let k := cacheKey a
  let got := cacheGetStep cache now k
  match got.2 with
  | some r => (r, got.1, false)
  | none =>
    if (strTrim a.query).length < 2 then
      let res := ToolResult.err "Query too short" none
      (res, cacheSetStep NOM_CACHE_MAX got.1 now k res CACHE_TTL_MS, false)
    else
      match net with
      | NomNet.netErr msg =>
        let res := ToolResult.err ("Network error: " ++ msg) none
        (res, cacheSetStep NOM_CACHE_MAX got.1 now k res NOM_ERR_TTL_MS, true)
      | NomNet.httpErr status =>
        let res := ToolResult.err ("Nominatim " ++ toString status) (some status)
        (res, cacheSetStep NOM_CACHE_MAX got.1 now k res NOM_ERR_TTL_MS, true)
      | NomNet.okRows rows =>
        let res := ToolResult.ok (toFeatureCollection rows) "nominatim"
        (res, cacheSetStep NOM_CACHE_MAX got.1 now k res CACHE_TTL_MS, true)

/-! ### Foursquare service and chained resolver (part_000 / part_003) -/

/-- A raw Foursquare place row (the fields read by `fsqResultsToGeoJSON`);
`latitude`/`longitude` are `some` exactly when the raw field is a number. -/
structure FsqRow where
  latitude : Option ℚ
  longitude : Option ℚ
  fsq_id : PropVal
  name : PropVal
  address : PropVal
  categories : List String
  distance : PropVal
deriving DecidableEq

/-- `fsqResultsToGeoJSON` from part_000: rows without numeric coordinates are
skipped; every kept feature is a Point tagged `source: "foursquare"`. -/
def fsqResultsToGeoJSON (results : List FsqRow) : FeatureCollection :=
  { features := results.filterMap (fun r =>
      match r.latitude, r.longitude with
      | some lat, some lng =>
        some { properties := [("source", PropVal.str "foursquare"),
                              ("fsq_id", r.fsq_id), ("name", r.name),
                              ("address", r.address),
                              ("categories", PropVal.strList r.categories),
                              ("distance", r.distance)]
               geometry := some (Geometry.point (lng, lat)) }
      | _, _ => none) }

/-- Outcome of the `fsqSearch` call (missing API key is one of the error
shapes). -/
inductive FsqOutcome where
  | ok (results : List FsqRow)
  | err (msg : String)

/-- The rating filter predicate from part_003:
`(f.properties as any)?.rating >= minRating` — `undefined` (or any
non-numeric value) compares false, so features lacking a numeric rating are
dropped. -/
def ratingGE (props : List (String × PropVal)) (t : ℚ) : Bool :=
  match alookup "rating" props with
  | some (PropVal.num r) => decide (t ≤ r)
  | _ => false

/-- The synthetic search-center feature `unshift`ed by part_003 (its
`geometry` field receives the non-null-asserted resolved geometry `g!`). -/
def searchCenterFeature (place : String) (g : Option Geometry) : Feature :=
  { properties := [("source", PropVal.str "nominatim"), ("name", PropVal.str place),
                   ("category", PropVal.str "search-center")]
    geometry := g }

/-- The `execute` body of `foursquareByPlaceTool` (part_003), with the
Nominatim result and the Foursquare search result supplied as oracles. -/
def foursquareByPlaceExec (place : String) (minRating : Option ℚ)
    (nomi : ToolResult) (fsq : FsqOutcome) : ToolResult :=
  match nomi with
  | ToolResult.err _ _ => ToolResult.err ("Could not locate \"" ++ place ++ "\"") none
  | ToolResult.ok data _ =>
    match data.features with
    | [] => ToolResult.err ("Could not locate \"" ++ place ++ "\"") none
    | f0 :: _ =>
      let g := f0.geometry
      match centroid g with
      | none => ToolResult.err "No usable centroid from place geometry" none
      | some _ =>
        match fsq with
        | FsqOutcome.err msg => ToolResult.err msg none
        | FsqOutcome.ok results =>
          let fc := fsqResultsToGeoJSON results
          let fc2 :=
            match minRating with
            | some t => FeatureCollection.mk (fc.features.filter (fun f => ratingGE f.properties t))
            | none => fc
          ToolResult.ok (FeatureCollection.mk (searchCenterFeature place g :: fc2.features)) "fsq"

/-! ### TripAdvisor tool (lib/tools/tripadvisor.ts) -/

/-- A geocoded coordinate, as cached by the fallback geocoder. -/
structure LngLat where
  lng : ℚ
  lat : ℚ
deriving DecidableEq

/-- `CACHE_TTL_MS` (tripadvisor.ts): 1 day. -/
def GEO_CACHE_TTL_MS : Nat := 24 * 60 * 60 * 1000

/-- `CACHE_MAX` (tripadvisor.ts): 500 entries. -/
def GEO_CACHE_MAX : Nat := 500

/-- The address→coordinate geocode cache state. -/
abbrev GeoCache := List ((String × Option (ℚ × ℚ)) × (LngLat × Nat))

/-- A TripAdvisor row (`TAItem`); `latitude`/`longitude` are `some` exactly
when `asNumber` returns a finite number for the raw field. -/
structure TAItem where
  location_id : PropVal
  name : PropVal
  address : Option String
  address_obj_string : Option String
  latitude : Option ℚ
  longitude : Option ℚ
deriving DecidableEq

/-- The property value `item.address || item.address_obj?.address_string`
(an empty-string `address` is falsy and falls through). -/
def addressProp (it : TAItem) : PropVal :=
  let a := match it.address with
    | some s => if s = "" then it.address_obj_string else some s
    | none => it.address_obj_string
  match a with
  | some s => PropVal.str s
  | none => PropVal.undef

/-- The address chosen for fallback geocoding; `none` when the combined value
is missing or empty (`if (!address) continue`). -/
def itemAddress (it : TAItem) : Option String :=
  let a := match it.address with
    | some s => if s = "" then it.address_obj_string else some s
    | none => it.address_obj_string
  match a with
  | some s => if s = "" then none else some s
  | none => none

/-- `poiFeature` from tripadvisor.ts. -/
def poiFeature (it : TAItem) (lng lat : ℚ) : Feature :=
  { properties := [("source", PropVal.str "tripadvisor"),
                   ("location_id", it.location_id),
                   ("name", it.name),
                   ("address", addressProp it),
                   ("category", PropVal.str "poi")]
    geometry := some (Geometry.point (lng, lat)) }

/-- The geocode-cache key
`` `${address.toLowerCase().trim()}|${lat.toFixed(3)},${lng.toFixed(3)}` ``. -/
def geoKey (address : String) (near : Option LngLat) : String × Option (ℚ × ℚ) :=
  (strTrim (strLower address), near.map (fun n => (round3 n.lat, round3 n.lng)))

/-- `geocodeAddressWithCache` from tripadvisor.ts, with the single-result
geocode fetch supplied as an oracle.  Returns the coordinate (if any), the
new cache state, and whether a network request was made. -/
def geocodeAddressWithCache (cache : GeoCache) (now : Nat) (net : String → Option LngLat)
    (address : String) (near : Option LngLat) : Option LngLat × GeoCache × Bool :=
  let k := geoKey address near
  let got := cacheGetStep cache now k
  match got.2 with
  | some v => (some v, got.1, false)
  | none =>
    match net address with
    | some v => (some v, cacheSetStep GEO_CACHE_MAX got.1 now k v GEO_CACHE_TTL_MS, true)
    | none => (none, got.1, true)

/-- Observable events of the per-POI loop in `tripAdvisorByPlaceTool`:
a geocode lookup (cached or fresh, successful or not) and the
`await sleep(1100)` pause. -/
inductive GeoEv where
  | lookup (cached : Bool) (success : Bool)
  | pause (ms : Nat)
deriving DecidableEq

/-- The per-POI loop in `tripAdvisorByPlaceTool` (steps after the TripAdvisor
search): items with coordinates become pins directly; otherwise the address
is geocoded through the cache, and after every successful geocode
(`if (cachedOrFresh)`) the incremented `geocodeCount` makes the
`if (geocodeCount > 0) await sleep(1100)` pause unconditional.  Returns the
accumulated POI features, the final cache, and the event trace. -/
def taPoiLoop (net : String → Option LngLat) (now : Nat) (center : LngLat) :
    List TAItem → GeoCache → List Feature × GeoCache × List GeoEv
  | [], cache => ([], cache, [])
  | it :: rest, cache =>
    match it.latitude, it.longitude with
    | some lat, some lng =>
      let r := taPoiLoop net now center rest cache
      (poiFeature it lng lat :: r.1, r.2.1, r.2.2)
    | _, _ =>
      match itemAddress it with
      | none => taPoiLoop net now center rest cache
      | some addr =>
        let g := geocodeAddressWithCache cache now net addr (some center)
        match g.1 with
        | some v =>
          let r := taPoiLoop net now center rest g.2.1
          (poiFeature it v.lng v.lat :: r.1, r.2.1,
            GeoEv.lookup (!g.2.2) true :: GeoEv.pause 1100 :: r.2.2)
        | none =>
          let r := taPoiLoop net now center rest g.2.1
          (r.1, r.2.1, GeoEv.lookup (!g.2.2) false :: r.2.2)

/-- A trace is well paced when every successful lookup is immediately
followed by a 1100 ms pause and every pause immediately follows a
successful lookup. -/
def wellPaced : List GeoEv → Bool
  | [] => true
  | GeoEv.pause _ :: _ => false
  | GeoEv.lookup _ true :: GeoEv.pause 1100 :: rest => wellPaced rest
  | GeoEv.lookup _ true :: _ => false
  | GeoEv.lookup _ false :: rest => wellPaced rest

/-- The `(a, cx, cy)` shoelace contribution of one member polygon to the
MultiPolygon totals of `part_003`'s `centroid`; rings with fewer than
3 points or zero shoelace sum are skipped, i.e. contribute `(0, 0, 0)`. -/
def mpContrib (poly : List (List Coord)) : ℚ × ℚ × ℚ :=
  let ring := poly.headD []
  if ring.length < 3 then (0, 0, 0)
  else
    let a := shoelaceA (ringPairsWrap ring)
    if a = 0 then (0, 0, 0)
    else (a, shoelaceCx (ringPairsWrap ring), shoelaceCy (ringPairsWrap ring))

/-- The `(cx*|area|, cy*|area|, |area|)` contribution of one member polygon
to the MultiPolygon totals of `geometryCentroid` (tripadvisor.ts); missing,
empty or degenerate outer rings contribute `(0, 0, 0)`. -/
def taMpContrib (poly : List (List Coord)) : ℚ × ℚ × ℚ :=
  match poly.head? with
  | none => (0, 0, 0)
  | some outer =>
    if outer = [] then (0, 0, 0)
    else
      match ringCentroid outer with
      | none => (0, 0, 0)
      | some rc => (rc.cx * |rc.area|, rc.cy * |rc.area|, |rc.area|)

/-- Invariant of the Nominatim result cache: any entry whose canonical key
was built from a too-short query holds the `"Query too short"` failure. -/
def shortQueryINV (m : NomCache) : Prop :=
  ∀ a : NomArgs, (strTrim a.query).length < 2 →
    ∀ v : ToolResult, ∀ e : Nat,
      alookup (cacheKey a) m = some (v, e) → v = ToolResult.err "Query too short" none

/-! ### Helper lemmas: shoelace summation over closed vs wrapped pairings -/

theorem crossOf_diag (p : Coord) : crossOf (p, p) = 0 := by
  simp [crossOf]

theorem cxOf_diag (p : Coord) : cxOf (p, p) = 0 := by
  simp [cxOf, crossOf]

theorem cyOf_diag (p : Coord) : cyOf (p, p) = 0 := by
  simp [cyOf, crossOf]

theorem pairsAdj_closeRing (ring : List Coord) :
    ringPairsAdj (closeRing ring) = ringPairsWrap ring ∨
    ∃ p : Coord, ring.head? = some p ∧
      ringPairsWrap ring = ringPairsAdj (closeRing ring) ++ [(p, p)] := by
  rcases ring with _ | ⟨p, rest⟩
  · left; rfl
  · rcases List.eq_nil_or_concat rest with hr | ⟨mid, q, hr⟩
    · subst hr
      right
      refine ⟨p, rfl, ?_⟩
      simp [closeRing, ringPairsAdj, ringPairsWrap, rotate1]
    · rw [List.concat_eq_append] at hr
      subst hr
      have hlast : (p :: (mid ++ [q])).getLast? = some q := by
        rw [show p :: (mid ++ [q]) = (p :: mid) ++ [q] by simp]
        exact List.getLast?_concat _
      by_cases hpq : p = q
      · right
        subst hpq
        refine ⟨p, rfl, ?_⟩
        have hclose : closeRing (p :: (mid ++ [p])) = p :: (mid ++ [p]) := by
          simp [closeRing, hlast]
        rw [hclose]
        have e1 := @List.zip_append Coord Coord (p :: mid) [p] (mid ++ [p]) [p] (by simp)
        have e2 := @List.zip_append Coord Coord (p :: mid) [p] (mid ++ [p]) [] (by simp)
        simp only [ringPairsWrap, ringPairsAdj, rotate1, List.tail_cons]
        simp only [List.cons_append, List.nil_append] at e1 e2 ⊢
        rw [List.append_nil] at e2
        rw [e1, e2]
        simp
      · left
        have hclose : closeRing (p :: (mid ++ [q])) = (p :: (mid ++ [q])) ++ [p] := by
          simp [closeRing, hlast, hpq]
        rw [hclose]
        have e1 := @List.zip_append Coord Coord (p :: (mid ++ [q])) [p] ((mid ++ [q]) ++ [p]) [] (by simp)
        simp only [ringPairsWrap, ringPairsAdj, rotate1, List.cons_append, List.nil_append,
          List.tail_cons] at e1 ⊢
        rw [List.append_nil] at e1
        rw [e1]
        simp

theorem sum_shoelace_closeRing (f : Coord × Coord → ℚ) (hf : ∀ p : Coord, f (p, p) = 0)
    (ring : List Coord) :
    ((ringPairsAdj (closeRing ring)).map f).sum = ((ringPairsWrap ring).map f).sum := by
  rcases pairsAdj_closeRing ring with h | ⟨p, _, h⟩
  · rw [h]
  · rw [h]; simp [hf]

theorem shoelaceA_closeRing (ring : List Coord) :
    shoelaceA (ringPairsAdj (closeRing ring)) = shoelaceA (ringPairsWrap ring) :=
  sum_shoelace_closeRing crossOf crossOf_diag ring

theorem shoelaceCx_closeRing (ring : List Coord) :
    shoelaceCx (ringPairsAdj (closeRing ring)) = shoelaceCx (ringPairsWrap ring) :=
  sum_shoelace_closeRing cxOf cxOf_diag ring

theorem shoelaceCy_closeRing (ring : List Coord) :
    shoelaceCy (ringPairsAdj (closeRing ring)) = shoelaceCy (ringPairsWrap ring) :=
  sum_shoelace_closeRing cyOf cyOf_diag ring

theorem shoelaceA_wrap_short (ring : List Coord) (h : ring.length < 3) :
    shoelaceA (ringPairsWrap ring) = 0 := by
  rcases ring with _ | ⟨p, _ | ⟨q, _ | ⟨r, t⟩⟩⟩
  · simp [shoelaceA, ringPairsWrap, rotate1]
  · simp [shoelaceA, ringPairsWrap, rotate1, crossOf]
  · simp [shoelaceA, ringPairsWrap, rotate1, crossOf]
  · simp at h
    omega

/-! ### Helper lemmas: MultiPolygon accumulation as sums -/

theorem mpStep_eq (acc : ℚ × ℚ × ℚ) (poly : List (List Coord)) :
    mpStep acc poly
      = (acc.1 + (mpContrib poly).1, acc.2.1 + (mpContrib poly).2.1,
         acc.2.2 + (mpContrib poly).2.2) := by
  simp only [mpStep, mpContrib]
  split_ifs <;> simp

theorem taMpStep_eq (s : ℚ × ℚ × ℚ) (poly : List (List Coord)) :
    taMpStep s poly
      = (s.1 + (taMpContrib poly).1, s.2.1 + (taMpContrib poly).2.1,
         s.2.2 + (taMpContrib poly).2.2) := by
  unfold taMpStep taMpContrib
  rcases hh : poly.head? with _ | outer
  · simp
  · by_cases ho : outer = []
    · simp [ho]
    · rcases hrc : ringCentroid outer with _ | rc <;> simp [ho, hrc]

theorem foldl_mpStep (polys : List (List (List Coord))) (acc : ℚ × ℚ × ℚ) :
    polys.foldl mpStep acc
      = (acc.1 + ((polys.map mpContrib).map (fun t => t.1)).sum,
         acc.2.1 + ((polys.map mpContrib).map (fun t => t.2.1)).sum,
         acc.2.2 + ((polys.map mpContrib).map (fun t => t.2.2)).sum) := by
  induction polys generalizing acc with
  | nil => simp
  | cons poly rest ih =>
    rw [List.foldl_cons, mpStep_eq, ih]
    simp only [List.map_cons, List.sum_cons, Prod.mk.injEq]
    refine ⟨by ring, by ring, by ring⟩

theorem foldl_taMpStep (polys : List (List (List Coord))) (s : ℚ × ℚ × ℚ) :
    polys.foldl taMpStep s
      = (s.1 + ((polys.map taMpContrib).map (fun t => t.1)).sum,
         s.2.1 + ((polys.map taMpContrib).map (fun t => t.2.1)).sum,
         s.2.2 + ((polys.map taMpContrib).map (fun t => t.2.2)).sum) := by
  induction polys generalizing s with
  | nil => simp
  | cons poly rest ih =>
    rw [List.foldl_cons, taMpStep_eq, ih]
    simp only [List.map_cons, List.sum_cons, Prod.mk.injEq]
    refine ⟨by ring, by ring, by ring⟩

/-! ### Helper lemmas: association-list cache -/

theorem strLower_length (s : String) : (strLower s).length = s.length := by
  rcases s with ⟨data⟩
  show (data.map Char.toLower).length = data.length
  exact List.length_map data Char.toLower

theorem alookup_cons {κ β : Type} [DecidableEq κ] (kv : κ × β) (rest : List (κ × β)) (k : κ) :
    alookup k (kv :: rest) = if kv.1 = k then some kv.2 else alookup k rest := by
  rfl

theorem mapDelete_cons {κ β : Type} [DecidableEq κ] (kv : κ × β) (rest : List (κ × β)) (k : κ) :
    mapDelete (kv :: rest) k
      = if kv.1 = k then mapDelete rest k else kv :: mapDelete rest k := by
  by_cases hk : kv.1 = k <;> simp [mapDelete, hk]

theorem alookup_map_update {κ β : Type} [DecidableEq κ] (m : List (κ × β)) (k : κ) (v : β)
    (h : (alookup k m).isSome) :
    alookup k (m.map (fun kv => if kv.1 = k then (k, v) else kv)) = some v := by
  induction m with
  | nil => simp [alookup] at h
  | cons kv rest ih =>
    by_cases hk : kv.1 = k
    · simp [alookup_cons, hk]
    · rw [alookup_cons, if_neg hk] at h
      simpa [alookup_cons, hk] using ih h

theorem alookup_map_update_ne {κ β : Type} [DecidableEq κ] (m : List (κ × β)) (k k' : κ) (v : β)
    (h : k' ≠ k) :
    alookup k' (m.map (fun kv => if kv.1 = k then (k, v) else kv)) = alookup k' m := by
  induction m with
  | nil => rfl
  | cons kv rest ih =>
    have h1 : ¬ (k = k') := fun hc => h hc.symm
    by_cases hk : kv.1 = k
    · simp [alookup_cons, hk, h1, ih]
    · by_cases hk' : kv.1 = k'
      · simp [alookup_cons, hk, hk', h]
      · simp [alookup_cons, hk, hk', ih]

theorem alookup_append_absent {κ β : Type} [DecidableEq κ] (m : List (κ × β)) (k : κ) (v : β)
    (h : alookup k m = none) :
    alookup k (m ++ [(k, v)]) = some v := by
  induction m with
  | nil => simp [alookup]
  | cons kv rest ih =>
    rw [alookup_cons] at h
    by_cases hk : kv.1 = k
    · rw [if_pos hk] at h; exact absurd h (by simp)
    · rw [if_neg hk] at h
      rw [List.cons_append, alookup_cons, if_neg hk]
      exact ih h

theorem alookup_append_single_ne {κ β : Type} [DecidableEq κ] (m : List (κ × β)) (k k' : κ)
    (v : β) (h : k' ≠ k) :
    alookup k' (m ++ [(k, v)]) = alookup k' m := by
  have h1 : ¬ (k = k') := fun hc => h hc.symm
  induction m with
  | nil => simp [alookup, h1]
  | cons kv rest ih =>
    rw [List.cons_append, alookup_cons, alookup_cons]
    by_cases hk' : kv.1 = k'
    · rw [if_pos hk', if_pos hk']
    · rw [if_neg hk', if_neg hk']
      exact ih

theorem alookup_mapSet_self {κ β : Type} [DecidableEq κ] (m : List (κ × β)) (k : κ) (v : β) :
    alookup k (mapSet m k v) = some v := by
  by_cases h : (alookup k m).isSome
  · simp only [mapSet, h, if_true]
    exact alookup_map_update m k v h
  · have h0 : alookup k m = none := Option.not_isSome_iff_eq_none.mp h
    simp only [mapSet, h0, Option.isSome_none, Bool.false_eq_true, if_false]
    exact alookup_append_absent m k v h0

theorem alookup_mapSet_ne {κ β : Type} [DecidableEq κ] (m : List (κ × β)) (k k' : κ) (v : β)
    (h : k' ≠ k) :
    alookup k' (mapSet m k v) = alookup k' m := by
  by_cases hp : (alookup k m).isSome
  · simp only [mapSet, hp, if_true]
    exact alookup_map_update_ne m k k' v h
  · simp only [mapSet, hp, if_false]
    exact alookup_append_single_ne m k k' v h

theorem alookup_mapDelete_self {κ β : Type} [DecidableEq κ] (m : List (κ × β)) (k : κ) :
    alookup k (mapDelete m k) = none := by
  induction m with
  | nil => rfl
  | cons kv rest ih =>
    rw [mapDelete_cons]
    by_cases hk : kv.1 = k
    · rw [if_pos hk]; exact ih
    · rw [if_neg hk, alookup_cons, if_neg hk]; exact ih

theorem alookup_mapDelete_ne {κ β : Type} [DecidableEq κ] (m : List (κ × β)) (k k' : κ)
    (h : k' ≠ k) :
    alookup k' (mapDelete m k) = alookup k' m := by
  induction m with
  | nil => rfl
  | cons kv rest ih =>
    rw [mapDelete_cons, alookup_cons]
    by_cases hk : kv.1 = k
    · rw [if_pos hk, if_neg (show ¬ kv.1 = k' by rw [hk]; exact fun hc => h hc.symm)]
      exact ih
    · rw [if_neg hk, alookup_cons]
      by_cases hk' : kv.1 = k'
      · rw [if_pos hk', if_pos hk']
      · rw [if_neg hk', if_neg hk']
        exact ih

theorem length_mapSet_le {κ β : Type} [DecidableEq κ] (m : List (κ × β)) (k : κ) (v : β) :
    (mapSet m k v).length ≤ m.length + 1 := by
  by_cases h : (alookup k m).isSome <;> simp [mapSet, h]

theorem length_mapDelete_le {κ β : Type} [DecidableEq κ] (m : List (κ × β)) (k : κ) :
    (mapDelete m k).length ≤ m.length :=
  List.length_filter_le _ _

theorem length_cacheSetStep_le {κ β : Type} [DecidableEq κ] (MAX : Nat)
    (m : List (κ × (β × Nat))) (now : Nat) (k : κ) (v : β) (ttl : Nat)
    (hM : 1 ≤ MAX) (hm : m.length ≤ MAX) :
    (cacheSetStep MAX m now k v ttl).length ≤ MAX := by
  unfold cacheSetStep
  by_cases hc : MAX ≤ m.length
  · rcases m with _ | ⟨kv, rest⟩
    · simp only [List.length_nil, hc, if_true, List.head?_nil]
      have := length_mapSet_le ([] : List (κ × (β × Nat))) k (v, now + ttl)
      simpa using le_trans this hM
    · simp only [hc, if_true, List.head?_cons]
      have h1 : (mapDelete (kv :: rest) kv.1).length ≤ rest.length := by
        rw [mapDelete_cons, if_pos rfl]
        exact length_mapDelete_le rest kv.1
      have h2 := length_mapSet_le (mapDelete (kv :: rest) kv.1) k (v, now + ttl)
      have h3 : rest.length + 1 ≤ MAX := by simpa using hm
      omega
  · simp only [hc, if_false]
    have h2 := length_mapSet_le m k (v, now + ttl)
    omega

theorem length_cacheGetStep_le {κ β : Type} [DecidableEq κ] (m : List (κ × (β × Nat)))
    (now : Nat) (k : κ) :
    (cacheGetStep m now k).1.length ≤ m.length := by
  unfold cacheGetStep
  rcases h : alookup k m with _ | ve
  · simp
  · by_cases he : ve.2 < now <;> simp [he, length_mapDelete_le]

theorem runOps_length_le {κ α : Type} [DecidableEq κ] (MAX : Nat) (hM : 1 ≤ MAX)
    (ops : List (CacheOp κ α)) (m : List (κ × (α × Nat))) (hm : m.length ≤ MAX) :
    (runOps MAX ops m).length ≤ MAX := by
  induction ops generalizing m with
  | nil => simpa [runOps] using hm
  | cons op rest ih =>
    rcases op with ⟨now, k⟩ | ⟨now, k, v, ttl⟩
    · simp only [runOps]
      exact ih _ (le_trans (length_cacheGetStep_le m now k) hm)
    · simp only [runOps]
      exact ih _ (length_cacheSetStep_le MAX m now k v ttl hM hm)

theorem alookup_cacheSetStep_self {κ β : Type} [DecidableEq κ] (MAX : Nat)
    (m : List (κ × (β × Nat))) (now : Nat) (k : κ) (v : β) (ttl : Nat) :
    alookup k (cacheSetStep MAX m now k v ttl) = some (v, now + ttl) := by
  unfold cacheSetStep
  exact alookup_mapSet_self _ _ _

theorem alookup_cacheSetStep_of {κ β : Type} [DecidableEq κ] (MAX : Nat)
    (m : List (κ × (β × Nat))) (now : Nat) (k k' : κ) (v : β) (ttl : Nat) (w : β × Nat)
    (h : alookup k' (cacheSetStep MAX m now k v ttl) = some w) :
    (k' = k ∧ w = (v, now + ttl)) ∨ alookup k' m = some w := by
  by_cases hk : k' = k
  · subst hk
    rw [alookup_cacheSetStep_self] at h
    exact Or.inl ⟨rfl, (Option.some.inj h).symm⟩
  · right
    unfold cacheSetStep at h
    rw [alookup_mapSet_ne _ _ _ _ hk] at h
    by_cases hc : MAX ≤ m.length
    · rcases hh : m.head? with _ | kv
      · simpa [hc, hh] using h
      · simp only [hc, if_true, hh] at h
        by_cases hd : k' = kv.1
        · subst hd
          rw [alookup_mapDelete_self] at h
          exact absurd h (by simp)
        · rwa [alookup_mapDelete_ne _ _ _ hd] at h
    · simpa [hc] using h

theorem cacheSetStep_evicts {κ β : Type} [DecidableEq κ] (MAX : Nat)
    (m : List (κ × (β × Nat))) (now : Nat) (k : κ) (v : β) (ttl : Nat) (h0 : κ) (e : β × Nat)
    (hc : MAX ≤ m.length) (hh : m.head? = some (h0, e)) (hk : h0 ≠ k) :
    alookup h0 (cacheSetStep MAX m now k v ttl) = none ∧
    ∀ k' : κ, k' ≠ h0 → k' ≠ k →
      alookup k' (cacheSetStep MAX m now k v ttl) = alookup k' m := by
  unfold cacheSetStep
  simp only [hc, if_true, hh]
  constructor
  · rw [alookup_mapSet_ne _ _ _ _ hk]
    exact alookup_mapDelete_self m h0
  · intro k' hk' hkk
    rw [alookup_mapSet_ne _ _ _ _ hkk, alookup_mapDelete_ne _ _ _ hk']

theorem cacheGetStep_hit {κ β : Type} [DecidableEq κ] (m : List (κ × (β × Nat)))
    (now : Nat) (k : κ) (v : β) (e : Nat)
    (h : alookup k m = some (v, e)) (he : ¬ e < now) :
    cacheGetStep m now k = (m, some v) := by
  unfold cacheGetStep
  rw [h]
  simp [he]

theorem cacheGetStep_fst {κ β : Type} [DecidableEq κ] (m : List (κ × (β × Nat)))
    (now : Nat) (k : κ) :
    (cacheGetStep m now k).1 = m ∨ (cacheGetStep m now k).1 = mapDelete m k := by
  unfold cacheGetStep
  rcases h : alookup k m with _ | ve
  · left; rfl
  · by_cases he : ve.2 < now <;> simp [he]

theorem alookup_cacheGetStep_fst_of {κ β : Type} [DecidableEq κ] (m : List (κ × (β × Nat)))
    (now : Nat) (k k' : κ) (w : β × Nat)
    (h : alookup k' (cacheGetStep m now k).1 = some w) :
    alookup k' m = some w := by
  rcases cacheGetStep_fst m now k with h1 | h1
  · rwa [h1] at h
  · rw [h1] at h
    by_cases hd : k' = k
    · subst hd
      rw [alookup_mapDelete_self] at h
      exact absurd h (by simp)
    · rwa [alookup_mapDelete_ne _ _ _ hd] at h

/-! ### Claims -/

/-- C1 (counterexample): the outer ring `[(0,0), (1,1), (2,2)]` has 3 points
and zero shoelace sum, yet `part_003`'s `centroid` returns the first
coordinate `(0,0)`, not the unweighted arithmetic mean `(1,1)` the claim
requires. -/
theorem C1_counterexample :
    shoelaceA (ringPairsWrap [((0:ℚ), (0:ℚ)), (1, 1), (2, 2)]) = 0 ∧
    centroid (some (Geometry.polygon [[((0:ℚ), (0:ℚ)), (1, 1), (2, 2)]])) = some (0, 0) ∧
    meanCoords [((0:ℚ), (0:ℚ)), (1, 1), (2, 2)] = (1, 1) ∧
    ((0:ℚ), (0:ℚ)) ≠ ((1:ℚ), (1:ℚ)) := by
  refine ⟨?_, ?_, ?_, by norm_num⟩
  · simp [shoelaceA, ringPairsWrap, rotate1, crossOf]
  · simp [centroid, centroidOfRing, shoelaceA, ringPairsWrap, rotate1, crossOf]
  · simp [meanCoords]
    norm_num

/-- C1 (amended): for a Polygon whose outer ring has zero shoelace sum
(which includes every ring with fewer than 3 points), `part_003`'s
`centroid` returns the ring's first coordinate — never the arithmetic
mean — and no centroid for an empty ring; the tripadvisor
`geometryCentroid` returns the arithmetic mean of the nonempty outer
ring's coordinates (which coincides with the first coordinate only for
one-point rings), and no centroid for an empty outer ring. -/
theorem C1_centroid_degenerate_polygon (ring : List Coord)
    (h : ring.length < 3 ∨ shoelaceA (ringPairsWrap ring) = 0) :
    centroid (some (Geometry.polygon [ring])) = ring.head? ∧
    (ring ≠ [] → geometryCentroid (Geometry.polygon [ring]) = some (meanCoords ring)) ∧
    geometryCentroid (Geometry.polygon [[]]) = none := by
  have h0 : shoelaceA (ringPairsWrap ring) = 0 := by
    rcases h with h | h
    · exact shoelaceA_wrap_short ring h
    · exact h
  have hrc : ringCentroid ring = none := by
    simp [ringCentroid, shoelaceA_closeRing, h0]
  refine ⟨?_, ?_, by simp [geometryCentroid]⟩
  · simp only [centroid, List.headD_cons]
    unfold centroidOfRing
    by_cases hlen : ring.length < 3
    · rw [if_pos hlen]
    · rw [if_neg hlen]
      simp [h0]
  · intro hne
    simp [geometryCentroid, hne, hrc]

/-- C1 (witness): the amended statement applied to the two-point ring
`[(0,0), (2,2)]`: `part_003`'s `centroid` yields the first coordinate,
`geometryCentroid` yields the midpoint. -/
theorem C1_witness :
    centroid (some (Geometry.polygon [[((0:ℚ), (0:ℚ)), (2, 2)]]))
      = ([((0:ℚ), (0:ℚ)), (2, 2)] : List Coord).head? ∧
    (([((0:ℚ), (0:ℚ)), (2, 2)] : List Coord) ≠ [] →
      geometryCentroid (Geometry.polygon [[((0:ℚ), (0:ℚ)), (2, 2)]])
        = some (meanCoords [((0:ℚ), (0:ℚ)), (2, 2)])) ∧
    geometryCentroid (Geometry.polygon [[]]) = none :=
  C1_centroid_degenerate_polygon [((0:ℚ), (0:ℚ)), (2, 2)] (Or.inl (by simp))

/-- C10: for a Polygon outer ring with at least 3 points and nonzero
shoelace sum, `part_003`'s `centroid` (mod-`n` wrap pairing) and
tripadvisor's `geometryCentroid` (explicit ring closing) return equal
coordinates — the shoelace centroid — whether or not the ring is
pre-closed. -/
theorem C10_centroid_implementations_agree (ring : List Coord) (h3 : 3 ≤ ring.length)
    (ha : shoelaceA (ringPairsWrap ring) ≠ 0) :
    centroid (some (Geometry.polygon [ring])) = geometryCentroid (Geometry.polygon [ring]) ∧
    centroid (some (Geometry.polygon [ring]))
      = some (shoelaceCx (ringPairsWrap ring) / (3 * shoelaceA (ringPairsWrap ring)),
              shoelaceCy (ringPairsWrap ring) / (3 * shoelaceA (ringPairsWrap ring))) := by
  have hne : ring ≠ [] := by
    intro hc
    rw [hc] at h3
    simp at h3
  have hlen : ¬ ring.length < 3 := by omega
  have hcent : centroid (some (Geometry.polygon [ring]))
      = some (shoelaceCx (ringPairsWrap ring) / (3 * shoelaceA (ringPairsWrap ring)),
              shoelaceCy (ringPairsWrap ring) / (3 * shoelaceA (ringPairsWrap ring))) := by
    simp only [centroid, List.headD_cons]
    unfold centroidOfRing
    rw [if_neg hlen]
    simp [ha]
  have hrc : ringCentroid ring
      = some { cx := shoelaceCx (ringPairsWrap ring) / (3 * shoelaceA (ringPairsWrap ring))
               cy := shoelaceCy (ringPairsWrap ring) / (3 * shoelaceA (ringPairsWrap ring))
               area := shoelaceA (ringPairsWrap ring) / 2 } := by
    simp only [ringCentroid, shoelaceA_closeRing, shoelaceCx_closeRing, shoelaceCy_closeRing]
    rw [if_neg ha]
  have hgeo : geometryCentroid (Geometry.polygon [ring])
      = some (shoelaceCx (ringPairsWrap ring) / (3 * shoelaceA (ringPairsWrap ring)),
              shoelaceCy (ringPairsWrap ring) / (3 * shoelaceA (ringPairsWrap ring))) := by
    simp [geometryCentroid, hne, hrc]
  exact ⟨hcent.trans hgeo.symm, hcent⟩

/-- C10 (witness): the agreement applied to the open square
`[(0,0), (4,0), (4,4), (0,4)]` and to its pre-closed variant. -/
theorem C10_witness :
    centroid (some (Geometry.polygon [[((0:ℚ), (0:ℚ)), (4, 0), (4, 4), (0, 4)]]))
      = geometryCentroid (Geometry.polygon [[((0:ℚ), (0:ℚ)), (4, 0), (4, 4), (0, 4)]]) ∧
    centroid (some (Geometry.polygon [[((0:ℚ), (0:ℚ)), (4, 0), (4, 4), (0, 4), (0, 0)]]))
      = geometryCentroid
          (Geometry.polygon [[((0:ℚ), (0:ℚ)), (4, 0), (4, 4), (0, 4), (0, 0)]]) := by
  constructor
  · exact (C10_centroid_implementations_agree [((0:ℚ), (0:ℚ)), (4, 0), (4, 4), (0, 4)]
      (by simp)
      (by simp [shoelaceA, ringPairsWrap, rotate1, crossOf])).1
  · exact (C10_centroid_implementations_agree [((0:ℚ), (0:ℚ)), (4, 0), (4, 4), (0, 4), (0, 0)]
      (by simp)
      (by simp [shoelaceA, ringPairsWrap, rotate1, crossOf])).1

/-- C2 (counterexample): for the MultiPolygon `[[[(0,0), (1,1), (2,2)]]]`
the total (signed) area over all outer rings is zero, yet `part_003`'s
`centroid` returns the first coordinate `(0,0)` of the first polygon, not
the arithmetic mean `(1,1)` of every coordinate across all polygons
(which is what tripadvisor's `geometryCentroid` returns). -/
theorem C2_counterexample :
    centroid (some (Geometry.multiPolygon [[[((0:ℚ), (0:ℚ)), (1, 1), (2, 2)]]])) = some (0, 0) ∧
    geometryCentroid (Geometry.multiPolygon [[[((0:ℚ), (0:ℚ)), (1, 1), (2, 2)]]]) = some (1, 1) ∧
    ((0:ℚ), (0:ℚ)) ≠ ((1:ℚ), (1:ℚ)) := by
  have h0 : shoelaceA (ringPairsWrap [((0:ℚ), (0:ℚ)), (1, 1), (2, 2)]) = 0 := by
    simp [shoelaceA, ringPairsWrap, rotate1, crossOf]
  have hcr : ringCentroid [((0:ℚ), (0:ℚ)), (1, 1), (2, 2)] = none := by
    simp [ringCentroid, shoelaceA_closeRing, h0, -Prod.mk_zero_zero, -Prod.mk_one_one]
  refine ⟨?_, ?_, by norm_num⟩
  · simp [centroid, mpStep, shoelaceA, ringPairsWrap, rotate1, crossOf]
  · simp [geometryCentroid, taMpStep, hcr, meanCoords, -Prod.mk_zero_zero, -Prod.mk_one_one]
    norm_num

/-- C2 (amended): `part_003`'s `centroid` on a MultiPolygon accumulates the
signed shoelace data of the outer rings (so member polygons are weighted by
signed area, not absolute area), and when the signed total is zero it
returns the first coordinate of the first polygon's first ring (or no
centroid), not the mean of all coordinates; tripadvisor's
`geometryCentroid` does behave as the claim states: it averages the outer
rings' centroids weighted by absolute area, and when the total absolute
area is zero it falls back to the arithmetic mean of every coordinate
across all polygons (no centroid when there are none). -/
theorem C2_multipolygon_centroid (polys : List (List (List Coord))) :
    (((polys.map mpContrib).map (fun t => t.1)).sum = 0 →
      centroid (some (Geometry.multiPolygon polys))
        = (polys.head?.bind List.head?).bind List.head?) ∧
    (((polys.map mpContrib).map (fun t => t.1)).sum ≠ 0 →
      centroid (some (Geometry.multiPolygon polys))
        = some (((polys.map mpContrib).map (fun t => t.2.1)).sum
                  / (3 * ((polys.map mpContrib).map (fun t => t.1)).sum),
                ((polys.map mpContrib).map (fun t => t.2.2)).sum
                  / (3 * ((polys.map mpContrib).map (fun t => t.1)).sum))) ∧
    geometryCentroid (Geometry.multiPolygon polys)
      = (if 0 < ((polys.map taMpContrib).map (fun t => t.2.2)).sum then
           some (((polys.map taMpContrib).map (fun t => t.1)).sum
                   / ((polys.map taMpContrib).map (fun t => t.2.2)).sum,
                 ((polys.map taMpContrib).map (fun t => t.2.1)).sum
                   / ((polys.map taMpContrib).map (fun t => t.2.2)).sum)
         else if polys.flatten.flatten = [] then none
         else some (meanCoords polys.flatten.flatten)) := by
  have e1 := foldl_mpStep polys (0, 0, 0)
  have e2 := foldl_taMpStep polys (0, 0, 0)
  simp only [zero_add] at e1 e2
  refine ⟨?_, ?_, ?_⟩
  · intro h
    simp only [centroid, e1]
    rw [if_pos h]
  · intro h
    simp only [centroid, e1]
    rw [if_neg h]
  · simp only [geometryCentroid, e2]

/-- C2 (witness): the amended characterization applied to the MultiPolygon
holding the single square `[(0,0), (4,0), (4,4), (0,4)]`, whose centroid is
`(2,2)`. -/
theorem C2_witness :
    centroid (some (Geometry.multiPolygon [[[((0:ℚ), (0:ℚ)), (4, 0), (4, 4), (0, 4)]]]))
      = some (2, 2) := by
  have h : ((([[[((0:ℚ), (0:ℚ)), (4, 0), (4, 4), (0, 4)]]] :
      List (List (List Coord))).map mpContrib).map (fun t => t.1)).sum ≠ 0 := by
    norm_num [mpContrib, shoelaceA, shoelaceCx, shoelaceCy, ringPairsWrap, rotate1,
      crossOf, cxOf, cyOf]
  have := (C2_multipolygon_centroid [[[((0:ℚ), (0:ℚ)), (4, 0), (4, 4), (0, 4)]]]).2.1 h
  rw [this]
  norm_num [mpContrib, shoelaceA, shoelaceCx, shoelaceCy, ringPairsWrap, rotate1,
    crossOf, cxOf, cyOf]

/-- C8 (counterexample): a POI whose address `"x"` is already in the
geocode cache is served from the cache (no network call — the oracle
returns `none` for every address), yet the loop still pauses 1100 ms after
it, contradicting the claim that a cached lookup incurs no pause. -/
theorem C8_counterexample :
    (taPoiLoop (fun _ => none) 0 ⟨0, 0⟩
        [{ location_id := PropVal.undef, name := PropVal.undef, address := some "x",
           address_obj_string := none, latitude := none, longitude := none }]
        [(geoKey "x" (some ⟨0, 0⟩), (⟨5, 5⟩, 100))]).2.2
      = [GeoEv.lookup true true, GeoEv.pause 1100] := by
  simp [taPoiLoop, itemAddress, geocodeAddressWithCache, cacheGetStep, alookup_cons]

/-- C8 (amended): in the per-POI loop of `tripAdvisorByPlaceTool`, the
1100 ms pause is taken immediately after every successful fallback geocode
lookup — cached or fresh — and never otherwise (in particular a fresh
lookup that fails is not followed by a pause). -/
theorem C8_pause_after_every_successful_lookup (net : String → Option LngLat) (now : Nat)
    (center : LngLat) (items : List TAItem) (cache : GeoCache) :
    wellPaced (taPoiLoop net now center items cache).2.2 = true := by
  induction items generalizing cache with
  | nil => rfl
  | cons it rest ih =>
    rcases hlat : it.latitude with _ | lat <;> rcases hlng : it.longitude with _ | lng
    · rcases haddr : itemAddress it with _ | addr
      · simpa [taPoiLoop, hlat, hlng, haddr] using ih cache
      · rcases hg : (geocodeAddressWithCache cache now net addr (some center)).1 with _ | v
        · simpa [taPoiLoop, hlat, hlng, haddr, hg, wellPaced] using
            ih (geocodeAddressWithCache cache now net addr (some center)).2.1
        · simpa [taPoiLoop, hlat, hlng, haddr, hg, wellPaced] using
            ih (geocodeAddressWithCache cache now net addr (some center)).2.1
    · rcases haddr : itemAddress it with _ | addr
      · simpa [taPoiLoop, hlat, hlng, haddr] using ih cache
      · rcases hg : (geocodeAddressWithCache cache now net addr (some center)).1 with _ | v
        · simpa [taPoiLoop, hlat, hlng, haddr, hg, wellPaced] using
            ih (geocodeAddressWithCache cache now net addr (some center)).2.1
        · simpa [taPoiLoop, hlat, hlng, haddr, hg, wellPaced] using
            ih (geocodeAddressWithCache cache now net addr (some center)).2.1
    · rcases haddr : itemAddress it with _ | addr
      · simpa [taPoiLoop, hlat, hlng, haddr] using ih cache
      · rcases hg : (geocodeAddressWithCache cache now net addr (some center)).1 with _ | v
        · simpa [taPoiLoop, hlat, hlng, haddr, hg, wellPaced] using
            ih (geocodeAddressWithCache cache now net addr (some center)).2.1
        · simpa [taPoiLoop, hlat, hlng, haddr, hg, wellPaced] using
            ih (geocodeAddressWithCache cache now net addr (some center)).2.1
    · simpa [taPoiLoop, hlat, hlng] using ih cache

/-- C3: every successful result of the chained recommendation resolver
(`foursquareByPlaceTool`) begins with the synthetic search-center feature:
its properties carry `source = "nominatim"` and `category = "search-center"`,
and its geometry is exactly the geometry of the first feature the place
resolver returned (e.g. the polygon), not a Point at the computed
centroid. -/
theorem C3_search_center_first (place : String) (minRating : Option ℚ) (nomi : ToolResult)
    (fsq : FsqOutcome) (fc : FeatureCollection) (src : String)
    (h : foursquareByPlaceExec place minRating nomi fsq = ToolResult.ok fc src) :
    ∃ (g : Geometry) (data : FeatureCollection) (nsrc : String) (f0 : Feature)
      (rest : List Feature),
      nomi = ToolResult.ok data nsrc ∧ data.features = f0 :: rest ∧ f0.geometry = some g ∧
      fc.features.head? = some (searchCenterFeature place (some g)) ∧
      alookup "source" (searchCenterFeature place (some g)).properties
        = some (PropVal.str "nominatim") ∧
      alookup "category" (searchCenterFeature place (some g)).properties
        = some (PropVal.str "search-center") := by
  rcases nomi with ⟨data, nsrc⟩ | ⟨msg, st⟩
  · rcases hfeat : data.features with _ | ⟨f0, rest⟩
    · simp only [foursquareByPlaceExec, hfeat] at h
      exact ToolResult.noConfusion h
    · simp only [foursquareByPlaceExec, hfeat] at h
      cases hc : centroid f0.geometry with
      | none => rw [hc] at h; simp at h
      | some c =>
        rw [hc] at h
        rcases fsq with ⟨results⟩ | ⟨msg⟩
        · simp only [ToolResult.ok.injEq] at h
          obtain ⟨h1, h2⟩ := h
          cases hg : f0.geometry with
          | none => rw [hg] at hc; simp [centroid] at hc
          | some g =>
            refine ⟨g, data, nsrc, f0, rest, rfl, hfeat, hg, ?_, by rfl, by rfl⟩
            rw [← h1, hg]
            simp
        · simp at h
  · simp [foursquareByPlaceExec] at h

/-- C3 (witness): a concrete successful chained call whose first (and only)
feature is the search-center feature carrying the resolved Point
geometry. -/
theorem C3_witness :
    ∃ (g : Geometry) (data : FeatureCollection) (nsrc : String) (f0 : Feature)
      (rest : List Feature),
      (ToolResult.ok
          (FeatureCollection.mk [Feature.mk [] (some (Geometry.point ((3:ℚ), (4:ℚ))))])
          "nominatim")
        = ToolResult.ok data nsrc ∧
      data.features = f0 :: rest ∧ f0.geometry = some g ∧
      (FeatureCollection.mk
          [searchCenterFeature "p" (some (Geometry.point ((3:ℚ), (4:ℚ))))]).features.head?
        = some (searchCenterFeature "p" (some g)) ∧
      alookup "source" (searchCenterFeature "p" (some g)).properties
        = some (PropVal.str "nominatim") ∧
      alookup "category" (searchCenterFeature "p" (some g)).properties
        = some (PropVal.str "search-center") :=
  C3_search_center_first "p" none
    (ToolResult.ok
      (FeatureCollection.mk [Feature.mk [] (some (Geometry.point ((3:ℚ), (4:ℚ))))])
      "nominatim")
    (FsqOutcome.ok [])
    (FeatureCollection.mk [searchCenterFeature "p" (some (Geometry.point ((3:ℚ), (4:ℚ))))])
    "fsq" rfl

/-- C4: when a minimum rating `t` is supplied, the chained resolver keeps
exactly the normalized features whose `rating` property is a number `≥ t`
(features lacking the property are excluded — in fact every feature this
normalizer produces lacks it, since no details fetch ever adds one); when
no threshold is supplied, no rating-based filtering occurs and all
normalized POI features are kept. -/
theorem C4_min_rating_filter (place : String) (t : ℚ) (data : FeatureCollection)
    (nsrc : String) (f0 : Feature) (rest : List Feature) (results : List FsqRow) (c : Coord)
    (hfeat : data.features = f0 :: rest) (hc : centroid f0.geometry = some c) :
    (foursquareByPlaceExec place (some t) (ToolResult.ok data nsrc) (FsqOutcome.ok results)
        = ToolResult.ok
            (FeatureCollection.mk (searchCenterFeature place f0.geometry ::
              (fsqResultsToGeoJSON results).features.filter (fun f => ratingGE f.properties t)))
            "fsq") ∧
    (∀ f : Feature,
        f ∈ (fsqResultsToGeoJSON results).features.filter (fun f => ratingGE f.properties t)
          ↔ f ∈ (fsqResultsToGeoJSON results).features ∧ ratingGE f.properties t = true) ∧
    (∀ props : List (String × PropVal), ∀ u : ℚ,
        alookup "rating" props = none → ratingGE props u = false) ∧
    (∀ f : Feature, f ∈ (fsqResultsToGeoJSON results).features →
        alookup "rating" f.properties = none) ∧
    (foursquareByPlaceExec place none (ToolResult.ok data nsrc) (FsqOutcome.ok results)
        = ToolResult.ok
            (FeatureCollection.mk (searchCenterFeature place f0.geometry ::
              (fsqResultsToGeoJSON results).features))
            "fsq") := by
  refine ⟨?_, ?_, ?_, ?_, ?_⟩
  · simp only [foursquareByPlaceExec, hfeat]
    rw [hc]
  · intro f
    simp [List.mem_filter]
  · intro props u h
    simp [ratingGE, h]
  · intro f hf
    simp only [fsqResultsToGeoJSON, List.mem_filterMap] at hf
    obtain ⟨r, _, heq⟩ := hf
    rcases hlat : r.latitude with _ | lat <;> rcases hlng : r.longitude with _ | lng <;>
      rw [hlat, hlng] at heq <;> simp at heq
    rw [← heq]
    rfl
  · simp only [foursquareByPlaceExec, hfeat]
    rw [hc]

/-- C4 (witness): the filter law applied to a concrete call (one resolved
Point feature, empty POI result set, threshold 4). -/
theorem C4_witness :
    foursquareByPlaceExec "p" (some 4)
        (ToolResult.ok
          (FeatureCollection.mk [Feature.mk [] (some (Geometry.point ((5:ℚ), (6:ℚ))))])
          "nominatim")
        (FsqOutcome.ok [])
      = ToolResult.ok
          (FeatureCollection.mk
            [searchCenterFeature "p" (some (Geometry.point ((5:ℚ), (6:ℚ))))])
          "fsq" := by
  have h := (C4_min_rating_filter "p" 4
    (FeatureCollection.mk [Feature.mk [] (some (Geometry.point ((5:ℚ), (6:ℚ))))])
    "nominatim" (Feature.mk [] (some (Geometry.point ((5:ℚ), (6:ℚ))))) [] [] ((5:ℚ), (6:ℚ))
    rfl rfl).1
  simpa using h

/-- C9: both normalizers only ever emit features with non-null geometry,
`part_003`'s `centroid` can only succeed on a non-null geometry (so the
non-null assertion `g!` at the search-center `unshift` can never fail),
and consequently every feature in any successful chained-resolver result
has non-null geometry. -/
theorem C9_nonnull_geometry :
    (∀ rows : List NomRow, ∀ f ∈ (toFeatureCollection rows).features, f.geometry ≠ none) ∧
    (∀ rows : List FsqRow, ∀ f ∈ (fsqResultsToGeoJSON rows).features, f.geometry ≠ none) ∧
    (∀ g : Option Geometry, centroid g ≠ none → g ≠ none) ∧
    (∀ (place : String) (minRating : Option ℚ) (nomi : ToolResult) (fsq : FsqOutcome)
        (fc : FeatureCollection) (src : String),
      foursquareByPlaceExec place minRating nomi fsq = ToolResult.ok fc src →
      ∀ f ∈ fc.features, f.geometry ≠ none) := by
  have hfsq : ∀ rows : List FsqRow, ∀ f ∈ (fsqResultsToGeoJSON rows).features,
      f.geometry ≠ none := by
    intro rows f hf
    simp only [fsqResultsToGeoJSON, List.mem_filterMap] at hf
    obtain ⟨r, _, heq⟩ := hf
    rcases hlat : r.latitude with _ | lat <;> rcases hlng : r.longitude with _ | lng <;>
      rw [hlat, hlng] at heq <;> simp at heq
    rw [← heq]
    simp
  refine ⟨?_, hfsq, ?_, ?_⟩
  · intro rows f hf
    simp only [toFeatureCollection, List.mem_map] at hf
    obtain ⟨r, _, heq⟩ := hf
    rw [← heq]
    simp
  · intro g h
    cases g with
    | none => simp [centroid] at h
    | some g0 => simp
  · intro place minRating nomi fsq fc src h f hf
    rcases nomi with ⟨data, nsrc⟩ | ⟨msg, st⟩
    · rcases hfeat : data.features with _ | ⟨f0, rest⟩
      · simp only [foursquareByPlaceExec, hfeat] at h
        exact ToolResult.noConfusion h
      · simp only [foursquareByPlaceExec, hfeat] at h
        cases hc : centroid f0.geometry with
        | none => rw [hc] at h; simp at h
        | some c =>
          rw [hc] at h
          rcases fsq with ⟨results⟩ | ⟨msg⟩
          · simp only [ToolResult.ok.injEq] at h
            obtain ⟨h1, h2⟩ := h
            rw [← h1] at hf
            simp only [List.mem_cons] at hf
            rcases hf with hf | hf
            · subst hf
              cases hg : f0.geometry with
              | none => rw [hg] at hc; simp [centroid] at hc
              | some g0 => simp [searchCenterFeature, hg]
            · rcases minRating with _ | t
              · exact hfsq results f hf
              · simp only [List.mem_filter] at hf
                exact hfsq results f hf.1
          · simp at h
    · simp [foursquareByPlaceExec] at h

/-- C9 (witness): the safety fact applied at concrete inputs: a geometry on
which `centroid` succeeds is non-null. -/
theorem C9_witness :
    (some (Geometry.point ((7:ℚ), (8:ℚ))) : Option Geometry) ≠ none :=
  C9_nonnull_geometry.2.2.1 (some (Geometry.point ((7:ℚ), (8:ℚ)))) (by simp [centroid])

/-- C5 (counterexample): the Nominatim normalizer `toFeatureCollection`
emits features with no `source` property at all — here a concrete row
produces exactly one feature whose property list has no `"source"` key —
so not every normalizer-produced feature carries a provider `source`
tag. -/
theorem C5_counterexample :
    (toFeatureCollection
        [{ geojson := none, lon := 0, lat := 0, display_name := PropVal.str "d",
           category := PropVal.undef, type := PropVal.undef, importance := PropVal.undef,
           osm_type := PropVal.undef, osm_id := PropVal.undef }]).features
      = [{ properties := [("display_name", PropVal.str "d"), ("category", PropVal.undef),
                          ("type", PropVal.undef), ("importance", PropVal.undef),
                          ("osm_type", PropVal.undef), ("osm_id", PropVal.undef)]
           geometry := some (Geometry.point ((0:ℚ), (0:ℚ))) }] ∧
    alookup "source"
        [("display_name", PropVal.str "d"), ("category", PropVal.undef),
         ("type", PropVal.undef), ("importance", PropVal.undef),
         ("osm_type", PropVal.undef), ("osm_id", PropVal.undef)]
      = none := by
  constructor
  · rfl
  · rfl

/-- C5 (amended): every feature produced by the Foursquare normalizer
carries `source = "foursquare"`, but features produced by the Nominatim
normalizer carry no `source` property at all. -/
theorem C5_source_property (rows : List FsqRow) (items : List NomRow) :
    (∀ f ∈ (fsqResultsToGeoJSON rows).features,
        alookup "source" f.properties = some (PropVal.str "foursquare")) ∧
    (∀ f ∈ (toFeatureCollection items).features,
        alookup "source" f.properties = none) := by
  constructor
  · intro f hf
    simp only [fsqResultsToGeoJSON, List.mem_filterMap] at hf
    obtain ⟨r, _, heq⟩ := hf
    rcases hlat : r.latitude with _ | lat <;> rcases hlng : r.longitude with _ | lng <;>
      rw [hlat, hlng] at heq <;> simp at heq
    rw [← heq]
    rfl
  · intro f hf
    simp only [toFeatureCollection, List.mem_map] at hf
    obtain ⟨r, _, heq⟩ := hf
    rw [← heq]
    rfl

/-- C5 (witness): the amended statement applied to one concrete Foursquare
row and one concrete Nominatim row. -/
theorem C5_witness :
    alookup "source"
        ((fsqResultsToGeoJSON
          [{ latitude := some 1, longitude := some 2, fsq_id := PropVal.str "id",
             name := PropVal.str "n", address := PropVal.undef, categories := [],
             distance := PropVal.num 9 }]).features.headD (Feature.mk [] none)).properties
      = some (PropVal.str "foursquare") := by
  have h := (C5_source_property
    [{ latitude := some 1, longitude := some 2, fsq_id := PropVal.str "id",
       name := PropVal.str "n", address := PropVal.undef, categories := [],
       distance := PropVal.num 9 }] []).1
  exact h _ (by simp [fsqResultsToGeoJSON])

theorem cacheGetStep_some {κ β : Type} [DecidableEq κ] (m : List (κ × (β × Nat)))
    (now : Nat) (k : κ) (v : β)
    (h : (cacheGetStep m now k).2 = some v) : ∃ e : Nat, alookup k m = some (v, e) := by
  unfold cacheGetStep at h
  rcases ha : alookup k m with _ | ve
  · rw [ha] at h
    simp at h
  · rw [ha] at h
    by_cases he : ve.2 < now
    · simp [he] at h
    · simp [he] at h
      refine ⟨ve.2, ?_⟩
      rw [← h]

/-- C6: starting empty, the Nominatim result cache never exceeds its
capacity of 300 entries and the address geocode cache never exceeds 500,
over any sequence of get/set operations; when a set occurs while the cache
is at capacity, the evicted entry is the head of the insertion-ordered map
(the earliest-inserted entry still present — JavaScript `Map` iteration
order — not a recency order), every other entry surviving; and a cache hit
leaves the cache unchanged (reads do not reorder entries, i.e. the policy
is insertion-order eviction, not LRU). -/
theorem C6_cache_capacity_and_eviction :
    (∀ ops : List (CacheOp NomKey ToolResult),
        (runOps NOM_CACHE_MAX ops ([] : NomCache)).length ≤ NOM_CACHE_MAX) ∧
    (∀ ops : List (CacheOp (String × Option (ℚ × ℚ)) LngLat),
        (runOps GEO_CACHE_MAX ops ([] : GeoCache)).length ≤ GEO_CACHE_MAX) ∧
    (∀ (MAX : Nat) (m : NomCache) (now : Nat) (k : NomKey) (v : ToolResult) (ttl : Nat)
        (h0 : NomKey) (e : ToolResult × Nat),
      MAX ≤ m.length → m.head? = some (h0, e) → h0 ≠ k →
      alookup h0 (cacheSetStep MAX m now k v ttl) = none ∧
      ∀ k' : NomKey, k' ≠ h0 → k' ≠ k →
        alookup k' (cacheSetStep MAX m now k v ttl) = alookup k' m) ∧
    (∀ (MAX : Nat) (m : GeoCache) (now : Nat) (k : String × Option (ℚ × ℚ)) (v : LngLat)
        (ttl : Nat) (h0 : String × Option (ℚ × ℚ)) (e : LngLat × Nat),
      MAX ≤ m.length → m.head? = some (h0, e) → h0 ≠ k →
      alookup h0 (cacheSetStep MAX m now k v ttl) = none ∧
      ∀ k' : String × Option (ℚ × ℚ), k' ≠ h0 → k' ≠ k →
        alookup k' (cacheSetStep MAX m now k v ttl) = alookup k' m) ∧
    (∀ (m : NomCache) (now : Nat) (k : NomKey) (v : ToolResult) (e : Nat),
      alookup k m = some (v, e) → ¬ e < now → cacheGetStep m now k = (m, some v)) := by
  refine ⟨?_, ?_, ?_, ?_, ?_⟩
  · intro ops
    exact runOps_length_le NOM_CACHE_MAX (by norm_num [NOM_CACHE_MAX]) ops [] (by simp)
  · intro ops
    exact runOps_length_le GEO_CACHE_MAX (by norm_num [GEO_CACHE_MAX]) ops [] (by simp)
  · intro MAX m now k v ttl h0 e hc hh hk
    exact cacheSetStep_evicts MAX m now k v ttl h0 e hc hh hk
  · intro MAX m now k v ttl h0 e hc hh hk
    exact cacheSetStep_evicts MAX m now k v ttl h0 e hc hh hk
  · intro m now k v e h he
    exact cacheGetStep_hit m now k v e h he

/-- C6 (witness): the eviction law applied to a concrete two-entry cache at
capacity 2: setting a third key evicts the earliest-inserted key `"a"` and
keeps key `"b"`. -/
theorem C6_witness :
    alookup (NomKey.mk "a" 5 "" true "" none)
        (cacheSetStep 2
          [(NomKey.mk "a" 5 "" true "" none, (ToolResult.err "x" none, 10)),
           (NomKey.mk "b" 5 "" true "" none, (ToolResult.err "y" none, 10))]
          0 (NomKey.mk "c" 5 "" true "" none) (ToolResult.err "z" none) 7)
      = none ∧
    alookup (NomKey.mk "b" 5 "" true "" none)
        (cacheSetStep 2
          [(NomKey.mk "a" 5 "" true "" none, (ToolResult.err "x" none, 10)),
           (NomKey.mk "b" 5 "" true "" none, (ToolResult.err "y" none, 10))]
          0 (NomKey.mk "c" 5 "" true "" none) (ToolResult.err "z" none) 7)
      = alookup (NomKey.mk "b" 5 "" true "" none)
          [(NomKey.mk "a" 5 "" true "" none, (ToolResult.err "x" none, 10)),
           (NomKey.mk "b" 5 "" true "" none, (ToolResult.err "y" none, 10))] := by
  have h := C6_cache_capacity_and_eviction.2.2.1 2
    [(NomKey.mk "a" 5 "" true "" none, (ToolResult.err "x" none, 10)),
     (NomKey.mk "b" 5 "" true "" none, (ToolResult.err "y" none, 10))]
    0 (NomKey.mk "c" 5 "" true "" none) (ToolResult.err "z" none) 7
    (NomKey.mk "a" 5 "" true "" none) (ToolResult.err "x" none, 10)
    (by simp) rfl (by simp)
  exact ⟨h.1, h.2 (NomKey.mk "b" 5 "" true "" none) (by simp) (by simp)⟩

/-- C7: a place-resolver call whose query trims to fewer than 2 characters
returns the `"Query too short"` failure and makes no network request (the
short-query invariant makes this hold also for cache hits, since any cache
entry under a short-query canonical key holds that same failure); on a
cache miss the failure is stored under the canonical key with the default
10-minute TTL (`CACHE_TTL_MS`), not the 2-minute failure TTL; and every
call preserves the short-query cache invariant. -/
theorem C7_short_query_negative_cache (a : NomArgs) (cache : NomCache) (now : Nat)
    (net : NomNet) (hshort : (strTrim a.query).length < 2) (hinv : shortQueryINV cache) :
    (runNominatimSearch a cache now net).1 = ToolResult.err "Query too short" none ∧
    (runNominatimSearch a cache now net).2.2 = false ∧
    ((cacheGetStep cache now (cacheKey a)).2 = none →
      alookup (cacheKey a) (runNominatimSearch a cache now net).2.1
        = some (ToolResult.err "Query too short" none, now + CACHE_TTL_MS)) ∧
    CACHE_TTL_MS = 10 * 60 * 1000 ∧ NOM_ERR_TTL_MS = 2 * 60 * 1000 ∧
    (∀ (a' : NomArgs) (cache' : NomCache) (now' : Nat) (net' : NomNet),
      shortQueryINV cache' → shortQueryINV (runNominatimSearch a' cache' now' net').2.1) := by
  have hpres : ∀ (a' : NomArgs) (cache' : NomCache) (now' : Nat) (net' : NomNet),
      shortQueryINV cache' → shortQueryINV (runNominatimSearch a' cache' now' net').2.1 := by
    intro a' cache' now' net' hinv'
    have hinvg : shortQueryINV (cacheGetStep cache' now' (cacheKey a')).1 := by
      intro b hb v e hlook
      exact hinv' b hb v e (alookup_cacheGetStep_fst_of _ _ _ _ _ hlook)
    have hkeylen : ∀ b : NomArgs, cacheKey b = cacheKey a' →
        (strTrim b.query).length = (strTrim a'.query).length := by
      intro b hkeq
      have hq := congrArg NomKey.q hkeq
      have hlen := congrArg String.length hq
      simpa [cacheKey, strLower_length] using hlen
    have hstore : ∀ res : ToolResult, ∀ ttl : Nat,
        ((strTrim a'.query).length < 2 → res = ToolResult.err "Query too short" none) →
        shortQueryINV (cacheSetStep NOM_CACHE_MAX (cacheGetStep cache' now' (cacheKey a')).1
          now' (cacheKey a') res ttl) := by
      intro res ttl hres b hb v e hlook
      rcases alookup_cacheSetStep_of _ _ _ _ _ _ _ _ hlook with ⟨hkeq, hveq⟩ | hold
      · have : (strTrim a'.query).length < 2 := by
          rw [← hkeylen b hkeq]
          exact hb
        have h1 : v = res := congrArg Prod.fst hveq
        rw [h1]
        exact hres this
      · exact hinvg b hb v e hold
    rcases hget : (cacheGetStep cache' now' (cacheKey a')).2 with _ | r
    · by_cases hs : (strTrim a'.query).length < 2
      · simp only [runNominatimSearch, hget, hs, if_true]
        exact hstore _ _ (fun _ => rfl)
      · simp only [runNominatimSearch, hget, hs, if_false]
        rcases net' with msg | status | rows
        · exact hstore _ _ (fun hc => absurd hc hs)
        · exact hstore _ _ (fun hc => absurd hc hs)
        · exact hstore _ _ (fun hc => absurd hc hs)
    · simp only [runNominatimSearch, hget]
      exact hinvg
  refine ⟨?_, ?_, ?_, rfl, rfl, hpres⟩
  · rcases hget : (cacheGetStep cache now (cacheKey a)).2 with _ | r
    · simp only [runNominatimSearch, hget, hshort, if_true]
    · simp only [runNominatimSearch, hget]
      obtain ⟨e, he⟩ := cacheGetStep_some cache now (cacheKey a) r hget
      exact hinv a hshort r e he
  · rcases hget : (cacheGetStep cache now (cacheKey a)).2 with _ | r
    · simp only [runNominatimSearch, hget, hshort, if_true]
    · simp only [runNominatimSearch, hget]
  · intro hmiss
    simp only [runNominatimSearch, hmiss, hshort, if_true]
    exact alookup_cacheSetStep_self _ _ _ _ _ _

/-- C7 (witness): the short-query behavior applied to the concrete call
with query `"a"` against an empty cache. -/
theorem C7_witness :
    (runNominatimSearch (NomArgs.mk "a" none none none none none) [] 0
        (NomNet.httpErr 503)).1
      = ToolResult.err "Query too short" none ∧
    (runNominatimSearch (NomArgs.mk "a" none none none none none) [] 0
        (NomNet.httpErr 503)).2.2 = false := by
  have h := C7_short_query_negative_cache (NomArgs.mk "a" none none none none none) [] 0
    (NomNet.httpErr 503) (by simp [strTrim]; decide)
    (by intro b hb v e hl; simp [alookup] at hl)
  exact ⟨h.1, h.2.1⟩
